import Mathlib

/-!
Shallow embedding of the Servsys backend's renewal-notification scheduler
(`app/notifications.py`) and OTP password-reset engine (`app/auth.py`,
`app/main.py`).

Time is modelled as whole seconds since the epoch (`Nat`):
`datetime.utcnow()` becomes an explicit `now : Nat` argument,
`timedelta(days=d)` becomes `d * secondsPerDay`, `timedelta(minutes=m)`
becomes `m * 60`, and `replace(hour=0, minute=0, second=0, microsecond=0)`
becomes `startOfDay`.  MongoDB collections are lists of records in
insertion order: `find` is `List.filter`, `find_one` is `List.find?`,
`insert_one` appends, `update_one` rewrites the first matching record,
`delete_many` filters, `delete_one {_id}` removes the record found.
External collaborators (the SMTP channel, the possibility of a store
insert raising, the bcrypt hasher, the `secrets` OTP generator) are
modelled as explicit parameters.
-/

namespace Servsys

/-- Seconds in one day, the granularity `timedelta(days=·)` is scaled by. -/
def secondsPerDay : Nat := 86400

/-- `dt.replace(hour=0, minute=0, second=0, microsecond=0)`: truncate a
timestamp to the start of its UTC calendar day. -/
def startOfDay (t : Nat) : Nat := t / secondsPerDay * secondsPerDay

/-- The `notification_preferences` dict: each key may be absent, in which
case `dict.get(key, default)` supplies the default at the use site. -/
structure PrefDict where
  reminder_days : Option (List Nat)
  email_notifications : Option Bool
deriving DecidableEq

/-- A document of the `users` collection as read by the scheduler
(`app/models.py`, class `User`). -/
structure UserR where
  id : Nat
  email : String
  notification_preferences : Option PrefDict
deriving DecidableEq

/-- A document of the `subscriptions` collection (`app/models.py`,
class `Subscription`); `cost` is modelled as a whole number. -/
structure Sub where
  id : Nat
  service_name : String
  cost : Nat
  billing_cycle : String
  renewal_date : Nat
  notes : Option String
  owner_id : Nat
  last_notified : Option Nat
deriving DecidableEq

/-- A document of the `notifications` collection (`app/models.py`,
class `Notification`). -/
structure NotificationR where
  user_id : Nat
  subscription_id : Nat
  message : String
  kind : String
  is_read : Bool
  created_at : Nat
deriving DecidableEq

/-- One recorded call to `send_email_notification` made from the scan via
`send_renewal_email`, with the boolean the dispatcher returned. -/
structure EmailAttempt where
  toEmail : String
  subject : String
  subscription_id : Nat
  days : Nat
  handedOff : Bool
deriving DecidableEq

/-- The collections the scheduler touches. -/
structure ScanDB where
  users : List UserR
  subscriptions : List Sub
  notifications : List NotificationR
deriving DecidableEq

/-- Scheduler run state: the evolving store plus the trace of email
dispatch attempts. -/
structure ScanState where
  db : ScanDB
  emails : List EmailAttempt
deriving DecidableEq

/-- SMTP environment configuration (`SMTP_USERNAME`, `SMTP_PASSWORD`,
`FROM_EMAIL`) plus the outcome of the three fallible channel steps
(connect+starttls, login, send), which in Python surface as caught
exceptions. -/
structure SMTPConfig where
  smtpUsername : String
  smtpPassword : String
  fromEmail : String
  connectOk : Bool
  loginOk : Bool
  sendOk : Bool

/-- `send_email_notification` (`app/notifications.py:72-96`): returns
`false` when the configuration is incomplete (`not all([...])`) and on
any exception from the SMTP session (all are caught); returns `true`
only after `send_message` succeeds. -/
def send_email_notification (cfg : SMTPConfig) (toEmail subject htmlContent : String) : Bool :=
  if cfg.smtpUsername == "" || cfg.smtpPassword == "" || cfg.fromEmail == "" then
    false
  else if !cfg.connectOk then
    false
  else if !cfg.loginOk then
    false
  else if !cfg.sendOk then
    false
  else
    true

/-- `user.notification_preferences or {}` (`app/notifications.py:142`):
`None` and the empty dict both yield the empty dict. -/
def prefDictOf (u : UserR) : PrefDict :=
  u.notification_preferences.getD ⟨none, none⟩

/-- `prefs.get("reminder_days", [1, 3, 7])` (`app/notifications.py:143`). -/
def reminderDaysOf (u : UserR) : List Nat :=
  (prefDictOf u).reminder_days.getD [1, 3, 7]

/-- `prefs.get("email_notifications", True)` (`app/notifications.py:174`). -/
def emailEnabledOf (u : UserR) : Bool :=
  (prefDictOf u).email_notifications.getD true

/-- The dedup clause of the subscription query
(`app/notifications.py:155-158`): `last_notified` absent, or strictly
before the target day's start. -/
def dedupOk (sod : Nat) : Option Nat → Bool
  | none => true
  | some ln => decide (ln < sod)

/-- The subscription query filter (`app/notifications.py:152-159`):
owner match, `renewal_date` in `[start_of_day, end_of_day)`, and the
dedup clause. -/
def subQueryMatch (ownerId sod : Nat) (s : Sub) : Bool :=
  s.owner_id == ownerId &&
  decide (sod ≤ s.renewal_date) &&
  decide (s.renewal_date < sod + secondsPerDay) &&
  dedupOk sod s.last_notified

/-- `db.subscriptions.update_one({"_id": id}, {"$set": {"last_notified": now}})`
(`app/notifications.py:178-181`): rewrite the first record with that id. -/
def updateLastNotified (subId now : Nat) : List Sub → List Sub
  | [] => []
  | t :: rest =>
    if t.id == subId then { t with last_notified := some now } :: rest
    else t :: updateLastNotified subId now rest

/-- The browser-notification message (`app/notifications.py:165`). -/
def renewalMessage (s : Sub) (days : Nat) : String :=
  s.service_name ++ " renews in " ++ toString days ++ " day(s) - $" ++ toString s.cost

/-- The email subject built by `send_renewal_email`
(`app/notifications.py:208`). -/
def renewalSubject (days : Nat) : String :=
  "Subscription Renewal Reminder - " ++ toString days ++ " day(s)"

/-- Stand-in for the rendered Jinja body of `send_renewal_email`: a
string of the same data (user email, service, days). -/
def renewalBody (userEmail : String) (s : Sub) (days : Nat) : String :=
  "Hello " ++ userEmail ++ ", " ++ s.service_name ++ " renews in " ++ toString days ++ " day(s)"

/-- External effects of one scan run: the SMTP environment, and whether
the `notifications.insert_one` call for a given subscription id succeeds
(a raising insert is an uncaught exception in the Python loop). -/
structure ScanEff where
  cfg : SMTPConfig
  insertOk : Nat → Bool

/-- Successful body of one iteration of the inner `for sub_doc in
subscriptions` loop (`app/notifications.py:161-181`): create the browser
notification (`create_browser_notification`, lines 99-112), dispatch the
email when enabled (`send_renewal_email`, lines 173-175), then set the
subscription's `last_notified := now` (lines 177-181). -/
def stepSub (cfg : SMTPConfig) (now uid : Nat) (uemail : String) (emailEnabled : Bool)
    (days : Nat) (s : Sub) (st : ScanState) : ScanState :=
  let notif : NotificationR :=
    { user_id := uid, subscription_id := s.id, message := renewalMessage s days,
      kind := "renewal_reminder", is_read := false, created_at := now }
  let st1 : ScanState :=
    { st with db := { st.db with notifications := st.db.notifications ++ [notif] } }
  let st2 : ScanState :=
    if emailEnabled then
      let r := send_email_notification cfg uemail (renewalSubject days)
        (renewalBody uemail s days)
      { st1 with emails := st1.emails ++
          [{ toEmail := uemail, subject := renewalSubject days,
             subscription_id := s.id, days := days, handedOff := r }] }
    else st1
  { st2 with db := { st2.db with
      subscriptions := updateLastNotified s.id now st2.db.subscriptions } }

/-- The inner `for sub_doc in subscriptions` loop
(`app/notifications.py:161-181`).  A raising `insert_one` is an uncaught
exception in the Python loop and propagates as an error, aborting the
run. -/
def processSubs (eff : ScanEff) (now uid : Nat) (uemail : String) (emailEnabled : Bool)
    (days : Nat) : List Sub → ScanState → Except String ScanState
  | [], st => .ok st
  | s :: rest, st =>
    if eff.insertOk s.id then
      processSubs eff now uid uemail emailEnabled days rest
        (stepSub eff.cfg now uid uemail emailEnabled days s st)
    else
      .error "insert_one failed"

/-- The `for days in reminder_days` loop (`app/notifications.py:146-181`):
compute the target-day window, query matching subscriptions, process them. -/
def scanDays (eff : ScanEff) (now uid : Nat) (uemail : String) (emailEnabled : Bool) :
    List Nat → ScanState → Except String ScanState
  | [], st => .ok st
  | d :: rest, st =>
    let sod := startOfDay (now + d * secondsPerDay)
    let matching := st.db.subscriptions.filter (subQueryMatch uid sod)
    match processSubs eff now uid uemail emailEnabled d matching st with
    | .ok st1 => scanDays eff now uid uemail emailEnabled rest st1
    | .error e => .error e

/-- The `for user_doc in users` loop (`app/notifications.py:140-181`). -/
def scanUsers (eff : ScanEff) (now : Nat) : List UserR → ScanState → Except String ScanState
  | [], st => .ok st
  | u :: rest, st =>
    match scanDays eff now u.id u.email (emailEnabledOf u) (reminderDaysOf u) st with
    | .ok st1 => scanUsers eff now rest st1
    | .error e => .error e

/-- `check_renewal_notifications` (`app/notifications.py:132-181`), the
spec's `runRenewalScan()`: snapshot `now` once, iterate all users. -/
def check_renewal_notifications (eff : ScanEff) (now : Nat) (db : ScanDB) :
    Except String ScanState :=
  scanUsers eff now db.users { db := db, emails := [] }

/-- Count of `renewal_reminder` notifications recorded for one
subscription id. -/
def renewalNotifCount (sid : Nat) (db : ScanDB) : Nat :=
  (db.notifications.filter
    (fun n => n.subscription_id == sid && n.kind == "renewal_reminder")).length

/-- Count of email dispatch attempts recorded for one subscription id. -/
def emailAttemptsFor (sid : Nat) (st : ScanState) : Nat :=
  (st.emails.filter (fun m => m.subscription_id == sid)).length

/-! ### OTP / password-reset engine (`app/auth.py`, `app/main.py`) -/

/-- A document of the `users` collection as the reset flow sees it. -/
structure AuthUser where
  email : String
  hashed_password : String
deriving DecidableEq

/-- A document of the `password_resets` collection
(`app/auth.py:95-100`). -/
structure ResetReq where
  email : String
  otp : String
  expires_at : Nat
  created_at : Nat
deriving DecidableEq

/-- The collections the reset flow touches. -/
structure AuthDB where
  users : List AuthUser
  password_resets : List ResetReq
deriving DecidableEq

/-- `OTP_EXPIRE_MINUTES` (`app/auth.py:24`). -/
def OTP_EXPIRE_MINUTES : Nat := 10

/-- `store_otp` (`app/auth.py:86-100`), the spec's storage half of
`issueCode`: `delete_many({"email": email})` then `insert_one` of the new
code with `expires_at = now + 10 minutes`. -/
def store_otp (now : Nat) (db : AuthDB) (email otp : String) : AuthDB :=
  { db with password_resets :=
      db.password_resets.filter (fun r => !(r.email == email)) ++
      [{ email := email, otp := otp,
         expires_at := now + OTP_EXPIRE_MINUTES * 60, created_at := now }] }

/-- The `find_one` filter of `verify_otp` (`app/auth.py:105-109`):
email, code, and `expires_at > now`. -/
def otpQueryMatch (email otp : String) (now : Nat) (r : ResetReq) : Bool :=
  r.email == email && r.otp == otp && decide (now < r.expires_at)

/-- `delete_one({"_id": ...})` on the record `find_one` returned: remove
the first record satisfying the query. -/
def removeFirst (p : α → Bool) : List α → List α
  | [] => []
  | x :: xs => if p x then xs else x :: removeFirst p xs

/-- `verify_otp` (`app/auth.py:102-115`), the spec's `verifyCode`: look
up a live matching request; if found delete it and return `true`, else
return `false`. -/
def verify_otp (now : Nat) (db : AuthDB) (email otp : String) : Bool × AuthDB :=
  match db.password_resets.find? (otpQueryMatch email otp now) with
  | some _ =>
    let remaining := removeFirst (otpQueryMatch email otp now) db.password_resets
    (true, { db with password_resets := remaining })
  | none => (false, db)

/-- `db.users.update_one({"email": email}, {"$set": {"hashed_password": h}})`
(`app/auth.py:170-173`): rewrite the first user with that email; the
returned flag is `modified_count > 0`, true only when a matched document
actually changed. -/
def updateUserPassword (newHash : String) (email : String) :
    List AuthUser → Bool × List AuthUser
  | [] => (false, [])
  | u :: rest =>
    if u.email == email then
      (!(u.hashed_password == newHash), { u with hashed_password := newHash } :: rest)
    else
      let (b, rest') := updateUserPassword newHash email rest
      (b, u :: rest')

/-- `auth.reset_password` (`app/auth.py:165-175`): hash the new password
with the external hasher and persist it on the user record. -/
def reset_password (hasher : String → String) (db : AuthDB)
    (email newPassword : String) : Bool × AuthDB :=
  let (b, users') := updateUserPassword (hasher newPassword) email db.users
  (b, { db with users := users' })

/-- Result of an HTTP route: a JSON message or a raised `HTTPException`. -/
inductive RouteResult where
  | ok (message : String)
  | httpError (code : Nat) (detail : String)
deriving DecidableEq

/-- The `/auth/reset-password` route (`app/main.py:161-174`), the spec's
`consumeAndResetPassword`: verify the OTP, then reset the password; a
failed verification raises 400 before any mutation of `users`. -/
def reset_password_route (now : Nat) (hasher : String → String) (db : AuthDB)
    (email otp newPassword : String) : RouteResult × AuthDB :=
  let (valid, db1) := verify_otp now db email otp
  if valid then
    let (success, db2) := reset_password hasher db1 email newPassword
    if success then (.ok "Password reset successfully", db2)
    else (.httpError 500 "Failed to reset password", db2)
  else
    (.httpError 400 "Invalid or expired OTP", db1)

/-- `send_password_reset_email` (`app/auth.py:117-163`): the OTP email,
dispatched through `send_email_notification`; the body is modelled as a
string of the same data. -/
def send_password_reset_email (cfg : SMTPConfig) (email otp : String) : Bool :=
  send_email_notification cfg email "Password Reset - Subscription Manager"
    ("Your verification code is: " ++ otp ++ ". This code will expire in 10 minutes")

/-- The `/auth/forgot-password` route (`app/main.py:130-148`): when the
email has no account, return a generic message; otherwise issue a code
(the externally generated `otp`), send it, and answer with a different
message — or raise 500 when the send fails. -/
def forgot_password_route (now : Nat) (cfg : SMTPConfig) (otp : String)
    (db : AuthDB) (email : String) : RouteResult × AuthDB :=
  match db.users.find? (fun u => u.email == email) with
  | none => (.ok "If the email exists, a password reset code has been sent", db)
  | some _ =>
    let db1 := store_otp now db email otp
    if send_password_reset_email cfg email otp then
      (.ok "Password reset code sent to your email", db1)
    else
      (.httpError 500 "Failed to send email", db1)

/-! ### Lemmas about the OTP engine -/

/-- A record matching the `verify_otp` query carries the queried email. -/
lemma otpQueryMatch_email {e c : String} {now : Nat} {r : ResetReq}
    (h : otpQueryMatch e c now r = true) : (r.email == e) = true := by
  simp only [otpQueryMatch, Bool.and_eq_true] at h
  exact h.1.1

/-- A record matching the `verify_otp` query carries the queried code. -/
lemma otpQueryMatch_otp {e c : String} {now : Nat} {r : ResetReq}
    (h : otpQueryMatch e c now r = true) : (r.otp == c) = true := by
  simp only [otpQueryMatch, Bool.and_eq_true] at h
  exact h.1.2

/-- A record matching the `verify_otp` query is still live at query time. -/
lemma otpQueryMatch_live {e c : String} {now : Nat} {r : ResetReq}
    (h : otpQueryMatch e c now r = true) : now < r.expires_at := by
  simp only [otpQueryMatch, Bool.and_eq_true, decide_eq_true_eq] at h
  exact h.2

/-- If no record satisfies `q` and `p` implies `q`, `find? p` fails. -/
lemma find?_none_of_filter_nil {α : Type} {p q : α → Bool} {l : List α}
    (h : l.filter q = []) (himp : ∀ x, p x = true → q x = true) :
    l.find? p = none := by
  rw [List.find?_eq_none]
  intro x hx hpx
  have : x ∈ l.filter q := List.mem_filter.mpr ⟨hx, himp x hpx⟩
  simp [h] at this

/-- Consuming the record `find?` returned leaves no record at all for
that email, provided at most one was stored for it. -/
lemma removeFirst_email_nil {e c : String} {now : Nat} {r : ResetReq}
    {l : List ResetReq}
    (hinv : (l.filter (fun x => x.email == e)).length ≤ 1)
    (hfind : l.find? (otpQueryMatch e c now) = some r) :
    (removeFirst (otpQueryMatch e c now) l).filter (fun x => x.email == e) = [] := by
  induction l with
  | nil => simp at hfind
  | cons a l ih =>
    cases hpa : otpQueryMatch e c now a with
    | true =>
      have hae := otpQueryMatch_email hpa
      simp only [removeFirst, hpa, if_true]
      simp only [List.filter_cons, hae, if_true, List.length_cons] at hinv
      have h0 : (l.filter (fun x => x.email == e)).length = 0 := by omega
      exact List.length_eq_zero.mp h0
    | false =>
      rw [List.find?_cons_of_neg _ (by simp [hpa])] at hfind
      simp only [removeFirst, hpa, Bool.false_eq_true, if_false]
      cases hae : (a.email == e) with
      | true =>
        simp only [List.filter_cons, hae, if_true, List.length_cons] at hinv
        have hr : r ∈ l.filter (fun x => x.email == e) :=
          List.mem_filter.mpr ⟨List.mem_of_find?_eq_some hfind,
            otpQueryMatch_email (List.find?_some hfind)⟩
        have h0 : (l.filter (fun x => x.email == e)).length = 0 := by omega
        rw [List.length_eq_zero.mp h0] at hr
        simp at hr
      | false =>
        simp only [List.filter_cons, hae, Bool.false_eq_true, if_false] at hinv ⊢
        exact ih hinv hfind

/-- After `store_otp now db e c`, the records for `e` are exactly the
newly inserted one. -/
lemma store_otp_filter_self (now : Nat) (db : AuthDB) (e c : String) :
    (store_otp now db e c).password_resets.filter (fun r => r.email == e) =
      [{ email := e, otp := c, expires_at := now + OTP_EXPIRE_MINUTES * 60,
         created_at := now }] := by
  simp only [store_otp, List.filter_append]
  rw [List.filter_filter]
  have h1 : db.password_resets.filter
      (fun a => (a.email == e) && !(a.email == e)) = [] := by
    apply List.filter_eq_nil_iff.mpr
    intro a _
    cases (a.email == e) <;> simp
  rw [h1]
  simp

/-- `store_otp` for `e` leaves the records of any other email unchanged. -/
lemma store_otp_filter_other (now : Nat) (db : AuthDB) (e c a : String)
    (hne : a ≠ e) :
    (store_otp now db e c).password_resets.filter (fun r => r.email == a) =
      db.password_resets.filter (fun r => r.email == a) := by
  simp only [store_otp, List.filter_append]
  rw [List.filter_filter]
  have h2 : ((⟨e, c, now + OTP_EXPIRE_MINUTES * 60, now⟩ : ResetReq).email == a)
      = false := beq_false_of_ne (fun h => hne (h.symm))
  have h1 : db.password_resets.filter (fun x => (x.email == a) && !(x.email == e)) =
      db.password_resets.filter (fun x => x.email == a) := by
    apply List.filter_congr
    intro x _
    cases hx : (x.email == a) with
    | true =>
      have : x.email = a := eq_of_beq hx
      have : (x.email == e) = false := beq_false_of_ne (by rw [this]; exact hne)
      simp [this]
    | false => simp
  rw [h1]
  simp [h2]

/-- `verify_otp` deletes the first user record matching the email and no
other, so looking the email up afterwards sees the new hash exactly when
a record existed. -/
lemma find?_updateUserPassword (newHash e : String) (us : List AuthUser) :
    (updateUserPassword newHash e us).snd.find? (fun u => u.email == e) =
      (us.find? (fun u => u.email == e)).map
        (fun u => { u with hashed_password := newHash }) := by
  induction us with
  | nil => simp [updateUserPassword]
  | cons u rest ih =>
    cases hue : (u.email == e) with
    | true =>
      simp only [updateUserPassword, hue, if_true]
      simp [List.find?_cons, hue]
    | false =>
      simp only [updateUserPassword, hue, Bool.false_eq_true, if_false]
      rcases hup : updateUserPassword newHash e rest with ⟨b, rest'⟩
      rw [hup] at ih
      simpa [List.find?_cons, hue] using ih

/-- Removing a record can only shrink any filtered view. -/
lemma removeFirst_filter_length_le {α : Type} (p q : α → Bool) (l : List α) :
    ((removeFirst p l).filter q).length ≤ (l.filter q).length := by
  induction l with
  | nil => simp [removeFirst]
  | cons a l ih =>
    simp only [removeFirst]
    cases hpa : p a with
    | true =>
      simp only [if_true]
      cases hqa : q a with
      | true =>
        simp only [List.filter_cons, hqa, if_true, List.length_cons]
        omega
      | false =>
        simp only [List.filter_cons, hqa, Bool.false_eq_true, if_false]
        exact Nat.le_refl _
    | false =>
      simp only [Bool.false_eq_true, if_false]
      cases hqa : q a with
      | true =>
        simp only [List.filter_cons, hqa, if_true, List.length_cons]
        omega
      | false =>
        simp only [List.filter_cons, hqa, Bool.false_eq_true, if_false]
        exact ih

/-! ### Claim theorems for the OTP engine -/

/-- C3: OTP codes are single-use.  If `verify_otp email code` returns
`true` once (over a store holding at most one request for that email,
the invariant `store_otp` maintains), the matching stored request is
deleted — no request for the email survives — and an immediately
subsequent `verify_otp` with the same code returns `false`. -/
theorem C3_otp_single_use (now now' : Nat) (db : AuthDB) (email otp : String)
    (hinv : (db.password_resets.filter (fun r => r.email == email)).length ≤ 1)
    (h1 : (verify_otp now db email otp).fst = true) :
    (verify_otp now db email otp).snd.password_resets.filter
        (fun r => r.email == email) = [] ∧
    (verify_otp now' (verify_otp now db email otp).snd email otp).fst = false := by
  cases hfind : db.password_resets.find? (otpQueryMatch email otp now) with
  | none => simp [verify_otp, hfind] at h1
  | some r =>
    have hnil := removeFirst_email_nil hinv hfind
    have hnone : (removeFirst (otpQueryMatch email otp now)
        db.password_resets).find? (otpQueryMatch email otp now') = none :=
      find?_none_of_filter_nil hnil (fun x hx => otpQueryMatch_email hx)
    constructor
    · simp [verify_otp, hfind, hnil]
    · simp [verify_otp, hfind, hnone]

/-- Fully evaluated instance of `C3_otp_single_use`. -/
theorem C3_otp_single_use_witness :
    (verify_otp 500 ⟨[], [⟨"a@x.com", "123456", 700, 100⟩]⟩ "a@x.com"
        "123456").snd.password_resets.filter (fun r => r.email == "a@x.com") = [] ∧
    (verify_otp 600 (verify_otp 500 ⟨[], [⟨"a@x.com", "123456", 700, 100⟩]⟩
        "a@x.com" "123456").snd "a@x.com" "123456").fst = false :=
  C3_otp_single_use 500 600 ⟨[], [⟨"a@x.com", "123456", 700, 100⟩]⟩
    "a@x.com" "123456" (by decide) (by decide)

/-- C4: at most one live password-reset request per email, preserved by
every operation.  `store_otp` keeps every email's record count at or
below one and, run twice for the same email, leaves exactly the second
request in the store; `verify_otp` only removes records; and the first
code no longer verifies (at any time, i.e. even before its expiry) once
a second code has been issued. -/
theorem C4_one_live_request_per_email (now1 now2 now3 now4 : Nat) (db : AuthDB)
    (e c1 c2 a : String)
    (hinv : ∀ b : String,
      (db.password_resets.filter (fun r => r.email == b)).length ≤ 1)
    (hne : c1 ≠ c2) :
    ((store_otp now1 db e c1).password_resets.filter
        (fun r => r.email == a)).length ≤ 1 ∧
    ((verify_otp now4 db a c1).snd.password_resets.filter
        (fun r => r.email == a)).length ≤ 1 ∧
    (store_otp now2 (store_otp now1 db e c1) e c2).password_resets.filter
        (fun r => r.email == e) =
      [{ email := e, otp := c2, expires_at := now2 + OTP_EXPIRE_MINUTES * 60,
         created_at := now2 }] ∧
    (verify_otp now3 (store_otp now2 (store_otp now1 db e c1) e c2) e c1).fst
      = false := by
  have hself := store_otp_filter_self now2 (store_otp now1 db e c1) e c2
  refine ⟨?_, ?_, hself, ?_⟩
  · by_cases hae : a = e
    · subst hae
      rw [store_otp_filter_self]
      simp
    · rw [store_otp_filter_other now1 db e c1 a hae]
      exact hinv a
  · cases hfind : db.password_resets.find? (otpQueryMatch a c1 now4) with
    | none => simp [verify_otp, hfind]; exact hinv a
    | some r =>
      simp only [verify_otp, hfind]
      exact le_trans (removeFirst_filter_length_le _ _ _) (hinv a)
  · have hnone : (store_otp now2 (store_otp now1 db e c1) e
        c2).password_resets.find? (otpQueryMatch e c1 now3) = none := by
      rw [List.find?_eq_none]
      intro x hx hpx
      have hxe := otpQueryMatch_email hpx
      have hxmem : x ∈ (store_otp now2 (store_otp now1 db e c1)
          e c2).password_resets.filter (fun r => r.email == e) :=
        List.mem_filter.mpr ⟨hx, hxe⟩
      rw [hself] at hxmem
      simp only [List.mem_singleton] at hxmem
      have hxc := eq_of_beq (otpQueryMatch_otp hpx)
      rw [hxmem] at hxc
      exact hne (hxc.symm)
    simp [verify_otp, hnone]

/-- Fully evaluated instance of `C4_one_live_request_per_email`. -/
theorem C4_one_live_request_per_email_witness :
    ((store_otp 100 ⟨[], []⟩ "a@x.com" "111111").password_resets.filter
        (fun r => r.email == "a@x.com")).length ≤ 1 ∧
    ((verify_otp 400 (⟨[], []⟩ : AuthDB) "a@x.com"
        "111111").snd.password_resets.filter
        (fun r => r.email == "a@x.com")).length ≤ 1 ∧
    (store_otp 200 (store_otp 100 ⟨[], []⟩ "a@x.com" "111111") "a@x.com"
        "222222").password_resets.filter (fun r => r.email == "a@x.com") =
      [{ email := "a@x.com", otp := "222222",
         expires_at := 200 + OTP_EXPIRE_MINUTES * 60, created_at := 200 }] ∧
    (verify_otp 300 (store_otp 200 (store_otp 100 ⟨[], []⟩ "a@x.com" "111111")
        "a@x.com" "222222") "a@x.com" "111111").fst = false :=
  C4_one_live_request_per_email 100 200 300 400 ⟨[], []⟩ "a@x.com" "111111"
    "222222" "a@x.com" (fun _ => by simp) (by decide)

/-- C5: `store_otp` stamps the new request with
`expires_at = now + 10 minutes`, and `verify_otp` run at any time at or
after the expiry of every request matching the email and code returns
`false`, even though the code matches. -/
theorem C5_otp_expiry (now t : Nat) (db : AuthDB) (e c : String) :
    (store_otp now db e c).password_resets.filter (fun r => r.email == e) =
      [{ email := e, otp := c, expires_at := now + OTP_EXPIRE_MINUTES * 60,
         created_at := now }] ∧
    ((∀ r ∈ db.password_resets, r.email = e → r.otp = c → r.expires_at ≤ t) →
      (verify_otp t db e c).fst = false) := by
  refine ⟨store_otp_filter_self now db e c, ?_⟩
  intro h
  have hnone : db.password_resets.find? (otpQueryMatch e c t) = none := by
    rw [List.find?_eq_none]
    intro x hx hpx
    have hlive := otpQueryMatch_live hpx
    have hxe := eq_of_beq (otpQueryMatch_email hpx)
    have hxc := eq_of_beq (otpQueryMatch_otp hpx)
    have := h x hx hxe hxc
    omega
  simp [verify_otp, hnone]

/-- Fully evaluated instance of `C5_otp_expiry`: the code stored at
`now = 100` expires at `700` and no longer validates at `t = 700`. -/
theorem C5_otp_expiry_witness :
    (store_otp 100 ⟨[], []⟩ "a@x.com" "123456").password_resets.filter
        (fun r => r.email == "a@x.com") =
      [{ email := "a@x.com", otp := "123456",
         expires_at := 100 + OTP_EXPIRE_MINUTES * 60, created_at := 100 }] ∧
    (verify_otp 700 (store_otp 100 ⟨[], []⟩ "a@x.com" "123456") "a@x.com"
        "123456").fst = false :=
  ⟨(C5_otp_expiry 100 700 ⟨[], []⟩ "a@x.com" "123456").1,
   (C5_otp_expiry 700 700 (store_otp 100 ⟨[], []⟩ "a@x.com" "123456")
      "a@x.com" "123456").2 (by decide)⟩

/-- C7: the reset route is atomic from the caller's view.  When OTP
verification fails the route raises 400 and the store — in particular
every stored credential — is exactly as before; when verification
succeeds, the user's stored credential becomes the hash of the new
password. -/
theorem C7_reset_atomicity (now : Nat) (hasher : String → String)
    (db : AuthDB) (e c p : String) :
    ((verify_otp now db e c).fst = false →
      reset_password_route now hasher db e c p =
        (.httpError 400 "Invalid or expired OTP", db)) ∧
    ((verify_otp now db e c).fst = true →
      (reset_password_route now hasher db e c p).snd.users.find?
          (fun u => u.email == e) =
        (db.users.find? (fun u => u.email == e)).map
          (fun u => { u with hashed_password := hasher p })) := by
  constructor
  · intro h
    cases hfind : db.password_resets.find? (otpQueryMatch e c now) with
    | some r => simp [verify_otp, hfind] at h
    | none => simp [reset_password_route, verify_otp, hfind]
  · intro h
    cases hfind : db.password_resets.find? (otpQueryMatch e c now) with
    | none => simp [verify_otp, hfind] at h
    | some r =>
      have hup := find?_updateUserPassword (hasher p) e db.users
      rcases hupe : updateUserPassword (hasher p) e db.users with ⟨b, users'⟩
      rw [hupe] at hup
      cases b <;>
        simp [reset_password_route, verify_otp, hfind, reset_password, hupe, hup]

/-- Fully evaluated instance of `C7_reset_atomicity`: the wrong code
leaves the store untouched, the right one persists the new hash. -/
theorem C7_reset_atomicity_witness :
    reset_password_route 500 (fun s => s ++ "#h")
        ⟨[⟨"a@x.com", "oldh"⟩], [⟨"a@x.com", "123456", 700, 100⟩]⟩
        "a@x.com" "000000" "npw" =
      (.httpError 400 "Invalid or expired OTP",
       ⟨[⟨"a@x.com", "oldh"⟩], [⟨"a@x.com", "123456", 700, 100⟩]⟩) ∧
    (reset_password_route 500 (fun s => s ++ "#h")
        ⟨[⟨"a@x.com", "oldh"⟩], [⟨"a@x.com", "123456", 700, 100⟩]⟩
        "a@x.com" "123456" "npw").snd.users.find?
        (fun u => u.email == "a@x.com") = some ⟨"a@x.com", "npw#h"⟩ :=
  ⟨(C7_reset_atomicity 500 (fun s => s ++ "#h")
      ⟨[⟨"a@x.com", "oldh"⟩], [⟨"a@x.com", "123456", 700, 100⟩]⟩
      "a@x.com" "000000" "npw").1 (by decide),
   by
    rw [(C7_reset_atomicity 500 (fun s => s ++ "#h")
      ⟨[⟨"a@x.com", "oldh"⟩], [⟨"a@x.com", "123456", 700, 100⟩]⟩
      "a@x.com" "123456" "npw").2 (by decide)]
    decide⟩

/-- C9: the password-reset request flow does NOT return the same message
for existing and non-existing emails.  With a fully working SMTP channel
the route answers `"If the email exists, a password reset code has been
sent"` for an unknown email but `"Password reset code sent to your
email"` for a registered one — distinguishable responses, contradicting
the route's own `Don't reveal if email exists` comment. -/
theorem C9_enumeration_distinguishable :
    (forgot_password_route 0 ⟨"u", "p", "f@x.com", true, true, true⟩ "123456"
        ⟨[⟨"a@x.com", "oldh"⟩], []⟩ "ghost@x.com").fst =
      .ok "If the email exists, a password reset code has been sent" ∧
    (forgot_password_route 0 ⟨"u", "p", "f@x.com", true, true, true⟩ "123456"
        ⟨[⟨"a@x.com", "oldh"⟩], []⟩ "a@x.com").fst =
      .ok "Password reset code sent to your email" ∧
    (forgot_password_route 0 ⟨"u", "p", "f@x.com", true, true, true⟩ "123456"
        ⟨[⟨"a@x.com", "oldh"⟩], []⟩ "ghost@x.com").fst ≠
    (forgot_password_route 0 ⟨"u", "p", "f@x.com", true, true, true⟩ "123456"
        ⟨[⟨"a@x.com", "oldh"⟩], []⟩ "a@x.com").fst :=
  ⟨by decide, by decide, by decide⟩

/-! ### Lemmas about the renewal scan -/

/-- The target-day window start for offset `d` in closed form. -/
lemma startOfDay_add_days (now d : Nat) :
    startOfDay (now + d * secondsPerDay) =
      (now / secondsPerDay + d) * secondsPerDay := by
  unfold startOfDay secondsPerDay
  omega

/-- Target-day windows of distinct offsets are disjoint calendar days, so
a subscription inside offset `d`'s window fails the query of any other
offset `d'`. -/
lemma subQueryMatch_other_day (w now d d' : Nat) (s : Sub) (hne : d' ≠ d)
    (h1 : startOfDay (now + d * secondsPerDay) ≤ s.renewal_date)
    (h2 : s.renewal_date < startOfDay (now + d * secondsPerDay) + secondsPerDay) :
    subQueryMatch w (startOfDay (now + d' * secondsPerDay)) s = false := by
  rw [startOfDay_add_days] at h1 h2 ⊢
  rcases Nat.lt_or_ge d' d with hlt | hge
  · have hb : decide (s.renewal_date <
        (now / secondsPerDay + d') * secondsPerDay + secondsPerDay) = false := by
      simp only [decide_eq_false_iff_not, not_lt]
      unfold secondsPerDay at h1 ⊢
      omega
    simp [subQueryMatch, hb]
  · have hlt' : d < d' := lt_of_le_of_ne hge (fun h => hne h.symm)
    have hb : decide ((now / secondsPerDay + d') * secondsPerDay
        ≤ s.renewal_date) = false := by
      simp only [decide_eq_false_iff_not, not_le]
      unfold secondsPerDay at h2 ⊢
      omega
    simp [subQueryMatch, hb]

/-- A subscription owned by someone else never matches the query. -/
lemma subQueryMatch_other_owner (w sod : Nat) (s : Sub)
    (h : (s.owner_id == w) = false) : subQueryMatch w sod s = false := by
  simp [subQueryMatch, h]

/-- `stepSub` never touches the `users` collection. -/
lemma stepSub_users (cfg : SMTPConfig) (now uid : Nat) (uemail : String)
    (en : Bool) (days : Nat) (s : Sub) (st : ScanState) :
    (stepSub cfg now uid uemail en days s st).db.users = st.db.users := by
  cases en <;> rfl

/-- The subscriptions after one `stepSub`. -/
lemma stepSub_subscriptions (cfg : SMTPConfig) (now uid : Nat) (uemail : String)
    (en : Bool) (days : Nat) (s : Sub) (st : ScanState) :
    (stepSub cfg now uid uemail en days s st).db.subscriptions =
      updateLastNotified s.id now st.db.subscriptions := by
  cases en <;> rfl

/-- The notifications after one `stepSub`: exactly one appended record. -/
lemma stepSub_notifications (cfg : SMTPConfig) (now uid : Nat) (uemail : String)
    (en : Bool) (days : Nat) (s : Sub) (st : ScanState) :
    (stepSub cfg now uid uemail en days s st).db.notifications =
      st.db.notifications ++
        [{ user_id := uid, subscription_id := s.id, message := renewalMessage s days,
           kind := "renewal_reminder", is_read := false, created_at := now }] := by
  cases en <;> rfl

/-- The email trace after one `stepSub`: one attempt appended exactly
when email notifications are enabled. -/
lemma stepSub_emails (cfg : SMTPConfig) (now uid : Nat) (uemail : String)
    (en : Bool) (days : Nat) (s : Sub) (st : ScanState) :
    (stepSub cfg now uid uemail en days s st).emails =
      if en then
        st.emails ++
          [{ toEmail := uemail, subject := renewalSubject days,
             subscription_id := s.id, days := days,
             handedOff := send_email_notification cfg uemail (renewalSubject days)
               (renewalBody uemail s days) }]
      else st.emails := by
  cases en <;> rfl

/-- The store part of `stepSub` does not depend on the SMTP
configuration. -/
lemma stepSub_db_cfg (cfg cfg' : SMTPConfig) (now uid : Nat) (uemail : String)
    (en : Bool) (days : Nat) (s : Sub) (st st' : ScanState) (h : st.db = st'.db) :
    (stepSub cfg now uid uemail en days s st).db =
      (stepSub cfg' now uid uemail en days s st').db := by
  cases en <;> simp [stepSub, h]

/-- Updating `last_notified` of a different subscription id leaves the
records with id `sid` untouched. -/
lemma updateLastNotified_filter_ne (tid now sid : Nat) (l : List Sub)
    (h : tid ≠ sid) :
    (updateLastNotified tid now l).filter (fun t => t.id == sid) =
      l.filter (fun t => t.id == sid) := by
  induction l with
  | nil => rfl
  | cons a l ih =>
    simp only [updateLastNotified]
    cases hat : (a.id == tid) with
    | true =>
      have haid : a.id = tid := eq_of_beq hat
      have h1 : (a.id == sid) = false := by
        rw [haid]; exact beq_false_of_ne h
      simp [List.filter_cons, h1]
    | false =>
      simp only [Bool.false_eq_true, if_false]
      simp only [List.filter_cons]
      cases has : (a.id == sid) <;> simp [has, ih]

/-- Updating `last_notified` of the unique record with id `sid` rewrites
exactly that record. -/
lemma updateLastNotified_filter_eq (now sid : Nat) (l : List Sub) (r : Sub)
    (h : l.filter (fun t => t.id == sid) = [r]) :
    (updateLastNotified sid now l).filter (fun t => t.id == sid) =
      [{ r with last_notified := some now }] := by
  induction l with
  | nil => simp at h
  | cons a l ih =>
    simp only [updateLastNotified]
    cases hat : (a.id == sid) with
    | true =>
      simp only [List.filter_cons, hat, if_true, List.cons.injEq] at h
      simp only [hat, if_true]
      rw [List.filter_cons_of_pos (by simpa using hat)]
      rw [h.2, h.1]
    | false =>
      simp only [List.filter_cons, hat, Bool.false_eq_true, if_false] at h ⊢
      exact ih h

/-- Filtering twice commutes. -/
lemma filter_swap {α : Type} (p q : α → Bool) (l : List α) :
    (l.filter p).filter q = (l.filter q).filter p := by
  rw [List.filter_filter, List.filter_filter]
  exact List.filter_congr (fun a _ => by cases p a <;> cases q a <;> rfl)

/-- When the records with id `sid` reduce to the single `r`, any member
of the list with that id is `r`. -/
lemma eq_of_mem_filter_singleton {l : List Sub} {r t : Sub} {sid : Nat}
    (hf : l.filter (fun x => x.id == sid) = [r]) (ht : t ∈ l)
    (hid : (t.id == sid) = true) : t = r := by
  have hm : t ∈ l.filter (fun x => x.id == sid) :=
    List.mem_filter.mpr ⟨ht, hid⟩
  rw [hf] at hm
  simpa using hm

/-- Unfolding of one successful inner-loop iteration. -/
lemma processSubs_cons (eff : ScanEff) (now uid : Nat) (uemail : String)
    (en : Bool) (d : Nat) (s : Sub) (rest : List Sub) (st : ScanState)
    (h : eff.insertOk s.id = true) :
    processSubs eff now uid uemail en d (s :: rest) st =
      processSubs eff now uid uemail en d rest
        (stepSub eff.cfg now uid uemail en d s st) := by
  simp [processSubs, h]

/-- Unfolding of a failing insert: the loop aborts. -/
lemma processSubs_cons_err (eff : ScanEff) (now uid : Nat) (uemail : String)
    (en : Bool) (d : Nat) (s : Sub) (rest : List Sub) (st : ScanState)
    (h : eff.insertOk s.id = false) :
    processSubs eff now uid uemail en d (s :: rest) st =
      .error "insert_one failed" := by
  simp [processSubs, h]

/-- Processing a batch that holds no subscription with id `sid` succeeds
(when inserts succeed) and leaves every `sid`-indexed view unchanged. -/
lemma processSubs_skip (eff : ScanEff) (now uid : Nat) (uemail : String)
    (en : Bool) (d sid : Nat) (l : List Sub)
    (heff : ∀ i, eff.insertOk i = true) :
    ∀ st : ScanState, (∀ t ∈ l, (t.id == sid) = false) →
    ∃ st', processSubs eff now uid uemail en d l st = .ok st' ∧
      st'.db.users = st.db.users ∧
      st'.db.subscriptions.filter (fun t => t.id == sid) =
        st.db.subscriptions.filter (fun t => t.id == sid) ∧
      renewalNotifCount sid st'.db = renewalNotifCount sid st.db ∧
      emailAttemptsFor sid st' = emailAttemptsFor sid st := by
  induction l with
  | nil => exact fun st _ => ⟨st, rfl, rfl, rfl, rfl, rfl⟩
  | cons s rest ih =>
    intro st hl
    have hs := hl s (List.mem_cons_self s rest)
    obtain ⟨st', heq, hu, hsubs, hn, he⟩ :=
      ih (stepSub eff.cfg now uid uemail en d s st)
        (fun t ht => hl t (List.mem_cons_of_mem s ht))
    refine ⟨st', ?_, ?_, ?_, ?_, ?_⟩
    · rw [processSubs_cons eff now uid uemail en d s rest st (heff s.id)]
      exact heq
    · rw [hu, stepSub_users]
    · rw [hsubs, stepSub_subscriptions,
        updateLastNotified_filter_ne s.id now sid _ (ne_of_beq_false hs)]
    · rw [hn]
      unfold renewalNotifCount
      rw [stepSub_notifications, List.filter_append]
      simp [hs]
    · rw [he]
      unfold emailAttemptsFor
      rw [stepSub_emails]
      cases en
      · rfl
      · simp [List.filter_append, hs]

/-- Processing a batch whose only subscription with id `sid` is `r`
(when inserts succeed, over a store whose unique `sid` record is `rc`)
appends exactly one `renewal_reminder` notification for `sid`, one email
attempt when enabled, and stamps `last_notified := now` on the store's
`sid` record. -/
lemma processSubs_hit (eff : ScanEff) (now uid : Nat) (uemail : String)
    (en : Bool) (d sid : Nat) (r : Sub) (l : List Sub)
    (heff : ∀ i, eff.insertOk i = true) :
    ∀ (st : ScanState) (rc : Sub),
      l.filter (fun t => t.id == sid) = [r] →
      st.db.subscriptions.filter (fun t => t.id == sid) = [rc] →
    ∃ st', processSubs eff now uid uemail en d l st = .ok st' ∧
      st'.db.users = st.db.users ∧
      st'.db.subscriptions.filter (fun t => t.id == sid) =
        [{ rc with last_notified := some now }] ∧
      renewalNotifCount sid st'.db = renewalNotifCount sid st.db + 1 ∧
      emailAttemptsFor sid st' = emailAttemptsFor sid st +
        (if en then 1 else 0) := by
  induction l with
  | nil => intro st rc hl _; simp at hl
  | cons s rest ih =>
    intro st rc hl hc
    cases hsid : (s.id == sid) with
    | true =>
      simp only [List.filter_cons, hsid, if_true, List.cons.injEq] at hl
      have hrest : ∀ t ∈ rest, (t.id == sid) = false := by
        intro t ht
        exact Bool.eq_false_iff.mpr (List.filter_eq_nil_iff.mp hl.2 t ht)
      have hsid' : s.id = sid := eq_of_beq hsid
      obtain ⟨st', heq, hu, hsubs, hn, he⟩ :=
        processSubs_skip eff now uid uemail en d sid rest heff
          (stepSub eff.cfg now uid uemail en d s st) hrest
      refine ⟨st', ?_, ?_, ?_, ?_, ?_⟩
      · rw [processSubs_cons eff now uid uemail en d s rest st (heff s.id)]
        exact heq
      · rw [hu, stepSub_users]
      · rw [hsubs, stepSub_subscriptions, hsid']
        exact updateLastNotified_filter_eq now sid _ rc hc
      · rw [hn]
        unfold renewalNotifCount
        rw [stepSub_notifications, List.filter_append]
        simp [hsid]
      · rw [he]
        unfold emailAttemptsFor
        rw [stepSub_emails]
        cases en <;> simp [hsid, List.filter_append]
    | false =>
      simp only [List.filter_cons, hsid, Bool.false_eq_true, if_false] at hl
      have hc1 : (stepSub eff.cfg now uid uemail en d s
          st).db.subscriptions.filter (fun t => t.id == sid) = [rc] := by
        rw [stepSub_subscriptions,
          updateLastNotified_filter_ne s.id now sid _ (ne_of_beq_false hsid)]
        exact hc
      obtain ⟨st', heq, hu, hsubs, hn, he⟩ :=
        ih (stepSub eff.cfg now uid uemail en d s st) rc hl hc1
      refine ⟨st', ?_, ?_, ?_, ?_, ?_⟩
      · rw [processSubs_cons eff now uid uemail en d s rest st (heff s.id)]
        exact heq
      · rw [hu, stepSub_users]
      · exact hsubs
      · rw [hn]
        unfold renewalNotifCount
        rw [stepSub_notifications, List.filter_append]
        simp [hsid]
      · rw [he]
        unfold emailAttemptsFor
        rw [stepSub_emails]
        cases en <;> simp [hsid, List.filter_append]

/-- When every insert succeeds the inner loop always completes. -/
lemma processSubs_total (eff : ScanEff) (now uid : Nat) (uemail : String)
    (en : Bool) (d : Nat) (l : List Sub)
    (heff : ∀ i, eff.insertOk i = true) :
    ∀ st : ScanState, ∃ st',
      processSubs eff now uid uemail en d l st = .ok st' := by
  induction l with
  | nil => exact fun st => ⟨st, rfl⟩
  | cons s rest ih =>
    intro st
    obtain ⟨st', heq⟩ := ih (stepSub eff.cfg now uid uemail en d s st)
    exact ⟨st', by rw [processSubs_cons eff now uid uemail en d s rest st (heff s.id)]; exact heq⟩

/-- The day loop splits over list append. -/
lemma scanDays_append (eff : ScanEff) (now uid : Nat) (uemail : String)
    (en : Bool) (ds1 ds2 : List Nat) :
    ∀ st : ScanState,
      scanDays eff now uid uemail en (ds1 ++ ds2) st =
      match scanDays eff now uid uemail en ds1 st with
      | .ok st1 => scanDays eff now uid uemail en ds2 st1
      | .error e => .error e := by
  induction ds1 with
  | nil => intro st; rfl
  | cons dd rest ih =>
    intro st
    simp only [List.cons_append, scanDays]
    cases hp : processSubs eff now uid uemail en dd
        (st.db.subscriptions.filter
          (subQueryMatch uid (startOfDay (now + dd * secondsPerDay)))) st with
    | ok st1 => simp [hp, ih st1]
    | error e => simp [hp]

/-- A sequence of offsets whose windows all miss the tracked record `rc`
leaves every `sid`-indexed view unchanged. -/
lemma scanDays_skip (eff : ScanEff) (now uid : Nat) (uemail : String)
    (en : Bool) (sid : Nat) (ds : List Nat) (rc : Sub)
    (heff : ∀ i, eff.insertOk i = true) :
    ∀ st : ScanState,
      (∀ dd ∈ ds,
        subQueryMatch uid (startOfDay (now + dd * secondsPerDay)) rc = false) →
      st.db.subscriptions.filter (fun t => t.id == sid) = [rc] →
    ∃ st', scanDays eff now uid uemail en ds st = .ok st' ∧
      st'.db.users = st.db.users ∧
      st'.db.subscriptions.filter (fun t => t.id == sid) = [rc] ∧
      renewalNotifCount sid st'.db = renewalNotifCount sid st.db ∧
      emailAttemptsFor sid st' = emailAttemptsFor sid st := by
  induction ds with
  | nil => exact fun st _ hc => ⟨st, rfl, rfl, hc, rfl, rfl⟩
  | cons dd rest ih =>
    intro st hskip hc
    have hmatch : ∀ t ∈ st.db.subscriptions.filter
        (subQueryMatch uid (startOfDay (now + dd * secondsPerDay))),
        (t.id == sid) = false := by
      intro t ht
      rcases List.mem_filter.mp ht with ⟨htl, htq⟩
      cases htid : (t.id == sid) with
      | false => rfl
      | true =>
        rw [eq_of_mem_filter_singleton hc htl htid,
          hskip dd (List.mem_cons_self dd rest)] at htq
        exact absurd htq (by simp)
    obtain ⟨st1, heq1, hu1, hs1, hn1, he1⟩ :=
      processSubs_skip eff now uid uemail en dd sid _ heff st hmatch
    obtain ⟨st', heq, hu, hs2, hn, he⟩ :=
      ih st1 (fun x hx => hskip x (List.mem_cons_of_mem dd hx)) (hs1.trans hc)
    refine ⟨st', ?_, hu.trans hu1, hs2, hn.trans hn1, he.trans he1⟩
    simp only [scanDays, heq1]
    exact heq

/-- The day loop completes whenever every insert succeeds. -/
lemma scanDays_total (eff : ScanEff) (now uid : Nat) (uemail : String)
    (en : Bool) (ds : List Nat)
    (heff : ∀ i, eff.insertOk i = true) :
    ∀ st : ScanState, ∃ st',
      scanDays eff now uid uemail en ds st = .ok st' := by
  induction ds with
  | nil => exact fun st => ⟨st, rfl⟩
  | cons dd rest ih =>
    intro st
    obtain ⟨st1, heq1⟩ := processSubs_total eff now uid uemail en dd
      (st.db.subscriptions.filter
        (subQueryMatch uid (startOfDay (now + dd * secondsPerDay)))) heff st
    obtain ⟨st', heq⟩ := ih st1
    exact ⟨st', by simp only [scanDays, heq1]; exact heq⟩

/-- Running the focal user's day list — windows before and after the hit
offset `d` all missing, `d`'s window containing the record — produces
exactly one notification and conditional email for `sid` and stamps
`last_notified := now`. -/
lemma scanDays_focus (eff : ScanEff) (now uid : Nat) (uemail : String)
    (en : Bool) (sid : Nat) (dpre dpost : List Nat) (d : Nat) (rc : Sub)
    (heff : ∀ i, eff.insertOk i = true)
    (hd1 : d ∉ dpre) (hd2 : d ∉ dpost)
    (hwin1 : startOfDay (now + d * secondsPerDay) ≤ rc.renewal_date)
    (hwin2 : rc.renewal_date < startOfDay (now + d * secondsPerDay) + secondsPerDay)
    (hmatch : subQueryMatch uid (startOfDay (now + d * secondsPerDay)) rc = true) :
    ∀ st : ScanState,
      st.db.subscriptions.filter (fun t => t.id == sid) = [rc] →
    ∃ st', scanDays eff now uid uemail en (dpre ++ d :: dpost) st = .ok st' ∧
      st'.db.users = st.db.users ∧
      st'.db.subscriptions.filter (fun t => t.id == sid) =
        [{ rc with last_notified := some now }] ∧
      renewalNotifCount sid st'.db = renewalNotifCount sid st.db + 1 ∧
      emailAttemptsFor sid st' = emailAttemptsFor sid st +
        (if en then 1 else 0) := by
  intro st hc
  obtain ⟨st1, heq1, hu1, hc1, hn1, he1⟩ :=
    scanDays_skip eff now uid uemail en sid dpre rc heff st
      (fun dd hdd => subQueryMatch_other_day uid now d dd rc
        (fun h => hd1 (h ▸ hdd)) hwin1 hwin2) hc
  have hml : (st1.db.subscriptions.filter
      (subQueryMatch uid (startOfDay (now + d * secondsPerDay)))).filter
        (fun t => t.id == sid) = [rc] := by
    rw [filter_swap, hc1, List.filter_cons]
    simp [hmatch]
  obtain ⟨st2, heq2, hu2, hc2, hn2, he2⟩ :=
    processSubs_hit eff now uid uemail en d sid rc _ heff st1 rc hml hc1
  obtain ⟨st3, heq3, hu3, hc3, hn3, he3⟩ :=
    scanDays_skip eff now uid uemail en sid dpost
      { rc with last_notified := some now } heff st2
      (fun dd hdd => subQueryMatch_other_day uid now d dd
        { rc with last_notified := some now }
        (fun h => hd2 (h ▸ hdd)) hwin1 hwin2) hc2
  refine ⟨st3, ?_, (hu3.trans hu2).trans hu1, hc3, ?_, ?_⟩
  · rw [scanDays_append eff now uid uemail en dpre (d :: dpost) st, heq1]
    simp only [scanDays, heq2]
    exact heq3
  · rw [hn3, hn2, hn1]
  · rw [he3, he2, he1]

/-- The user loop splits over list append. -/
lemma scanUsers_append (eff : ScanEff) (now : Nat) (us1 us2 : List UserR) :
    ∀ st : ScanState,
      scanUsers eff now (us1 ++ us2) st =
      match scanUsers eff now us1 st with
      | .ok st1 => scanUsers eff now us2 st1
      | .error e => .error e := by
  induction us1 with
  | nil => intro st; rfl
  | cons v rest ih =>
    intro st
    simp only [List.cons_append, scanUsers]
    cases hp : scanDays eff now v.id v.email (emailEnabledOf v)
        (reminderDaysOf v) st with
    | ok st1 => simp [hp, ih st1]
    | error e => simp [hp]

/-- Users who do not own the tracked record leave every `sid`-indexed
view unchanged. -/
lemma scanUsers_skip (eff : ScanEff) (now sid : Nat) (us : List UserR)
    (rc : Sub) (heff : ∀ i, eff.insertOk i = true) :
    ∀ st : ScanState,
      (∀ v ∈ us, (rc.owner_id == v.id) = false) →
      st.db.subscriptions.filter (fun t => t.id == sid) = [rc] →
    ∃ st', scanUsers eff now us st = .ok st' ∧
      st'.db.users = st.db.users ∧
      st'.db.subscriptions.filter (fun t => t.id == sid) = [rc] ∧
      renewalNotifCount sid st'.db = renewalNotifCount sid st.db ∧
      emailAttemptsFor sid st' = emailAttemptsFor sid st := by
  induction us with
  | nil => exact fun st _ hc => ⟨st, rfl, rfl, hc, rfl, rfl⟩
  | cons v rest ih =>
    intro st hskip hc
    obtain ⟨st1, heq1, hu1, hc1, hn1, he1⟩ :=
      scanDays_skip eff now v.id v.email (emailEnabledOf v) sid
        (reminderDaysOf v) rc heff st
        (fun dd _ => subQueryMatch_other_owner v.id _ rc
          (hskip v (List.mem_cons_self v rest))) hc
    obtain ⟨st', heq, hu, hs, hn, he⟩ :=
      ih st1 (fun x hx => hskip x (List.mem_cons_of_mem v hx)) hc1
    refine ⟨st', ?_, hu.trans hu1, hs, hn.trans hn1, he.trans he1⟩
    simp only [scanUsers, heq1]
    exact heq

/-- The user loop completes whenever every insert succeeds. -/
lemma scanUsers_total (eff : ScanEff) (now : Nat) (us : List UserR)
    (heff : ∀ i, eff.insertOk i = true) :
    ∀ st : ScanState, ∃ st', scanUsers eff now us st = .ok st' := by
  induction us with
  | nil => exact fun st => ⟨st, rfl⟩
  | cons v rest ih =>
    intro st
    obtain ⟨st1, heq1⟩ := scanDays_total eff now v.id v.email
      (emailEnabledOf v) (reminderDaysOf v) heff st
    obtain ⟨st', heq⟩ := ih st1
    exact ⟨st', by simp only [scanUsers, heq1]; exact heq⟩

/-- Central counting lemma for one run of the scan: under per-id
uniqueness of the focal user and subscription, a subscription whose
`renewal_date` falls in the window of offset `d` of its owner's reminder
days and which passes the dedup clause receives exactly one new
`renewal_reminder` notification, exactly one email attempt when the
owner's email preference is on (none otherwise), and its
`last_notified` is set to the run's `now`. -/
lemma scan_notifies_once (eff : ScanEff) (now : Nat) (db : ScanDB)
    (upre upost : List UserR) (u : UserR) (s : Sub)
    (dpre dpost : List Nat) (d : Nat)
    (heff : ∀ i, eff.insertOk i = true)
    (husers : db.users = upre ++ u :: upost)
    (hpre : ∀ v ∈ upre, v.id ≠ u.id)
    (hpost : ∀ v ∈ upost, v.id ≠ u.id)
    (hs : db.subscriptions.filter (fun t => t.id == s.id) = [s])
    (howner : s.owner_id = u.id)
    (hdays : reminderDaysOf u = dpre ++ d :: dpost)
    (hd1 : d ∉ dpre) (hd2 : d ∉ dpost)
    (hwin1 : startOfDay (now + d * secondsPerDay) ≤ s.renewal_date)
    (hwin2 : s.renewal_date < startOfDay (now + d * secondsPerDay) + secondsPerDay)
    (hdedup : dedupOk (startOfDay (now + d * secondsPerDay)) s.last_notified
      = true) :
    ∃ st, check_renewal_notifications eff now db = .ok st ∧
      st.db.users = db.users ∧
      st.db.subscriptions.filter (fun t => t.id == s.id) =
        [{ s with last_notified := some now }] ∧
      renewalNotifCount s.id st.db = renewalNotifCount s.id db + 1 ∧
      emailAttemptsFor s.id st = (if emailEnabledOf u then 1 else 0) := by
  have hmatch : subQueryMatch u.id (startOfDay (now + d * secondsPerDay)) s
      = true := by
    simp [subQueryMatch, howner, hwin1, hwin2, hdedup]
  obtain ⟨st1, heq1, hu1, hc1, hn1, he1⟩ :=
    scanUsers_skip eff now s.id upre s heff { db := db, emails := [] }
      (fun v hv => by
        rw [howner]
        exact beq_false_of_ne (fun h => hpre v hv h.symm)) hs
  obtain ⟨st2, heq2, hu2, hc2, hn2, he2⟩ :=
    scanDays_focus eff now u.id u.email (emailEnabledOf u) s.id dpre dpost d s
      heff hd1 hd2 hwin1 hwin2 hmatch st1 hc1
  obtain ⟨st3, heq3, hu3, hc3, hn3, he3⟩ :=
    scanUsers_skip eff now s.id upost { s with last_notified := some now }
      heff st2
      (fun v hv => by
        show (s.owner_id == v.id) = false
        rw [howner]
        exact beq_false_of_ne (fun h => hpost v hv h.symm)) hc2
  refine ⟨st3, ?_, (hu3.trans (hu2.trans hu1)), hc3, ?_, ?_⟩
  · unfold check_renewal_notifications
    rw [husers, scanUsers_append eff now upre (u :: upost)
      { db := db, emails := [] }, heq1]
    simp only [scanUsers]
    rw [hdays, heq2]
    exact heq3
  · rw [hn3, hn2, hn1]
  · rw [he3, he2, he1]
    simp [emailAttemptsFor]

/-- The store evolution of the inner loop never reads the SMTP
configuration (only the email trace does). -/
lemma processSubs_cfg_indep (cfg cfg' : SMTPConfig) (io : Nat → Bool)
    (now uid : Nat) (uemail : String) (en : Bool) (d : Nat) (l : List Sub) :
    ∀ st st' : ScanState, st.db = st'.db →
      (processSubs ⟨cfg, io⟩ now uid uemail en d l st).map ScanState.db =
      (processSubs ⟨cfg', io⟩ now uid uemail en d l st').map ScanState.db := by
  induction l with
  | nil => intro st st' h; simp [processSubs, Except.map, h]
  | cons s rest ih =>
    intro st st' h
    cases hio : io s.id with
    | true =>
      rw [processSubs_cons ⟨cfg, io⟩ now uid uemail en d s rest st hio,
        processSubs_cons ⟨cfg', io⟩ now uid uemail en d s rest st' hio]
      exact ih _ _ (stepSub_db_cfg cfg cfg' now uid uemail en d s st st' h)
    | false =>
      rw [processSubs_cons_err ⟨cfg, io⟩ now uid uemail en d s rest st hio,
        processSubs_cons_err ⟨cfg', io⟩ now uid uemail en d s rest st' hio]

/-- The store evolution of the day loop is SMTP-configuration
independent. -/
lemma scanDays_cfg_indep (cfg cfg' : SMTPConfig) (io : Nat → Bool)
    (now uid : Nat) (uemail : String) (en : Bool) (ds : List Nat) :
    ∀ st st' : ScanState, st.db = st'.db →
      (scanDays ⟨cfg, io⟩ now uid uemail en ds st).map ScanState.db =
      (scanDays ⟨cfg', io⟩ now uid uemail en ds st').map ScanState.db := by
  induction ds with
  | nil => intro st st' h; simp [scanDays, Except.map, h]
  | cons dd rest ih =>
    intro st st' h
    simp only [scanDays]
    rw [← h]
    have hm := processSubs_cfg_indep cfg cfg' io now uid uemail en dd
      (st.db.subscriptions.filter
        (subQueryMatch uid (startOfDay (now + dd * secondsPerDay)))) st st' h
    cases hp : processSubs ⟨cfg, io⟩ now uid uemail en dd
        (st.db.subscriptions.filter
          (subQueryMatch uid (startOfDay (now + dd * secondsPerDay)))) st with
    | ok st1 =>
      cases hp' : processSubs ⟨cfg', io⟩ now uid uemail en dd
          (st.db.subscriptions.filter
            (subQueryMatch uid (startOfDay (now + dd * secondsPerDay)))) st' with
      | ok st1' =>
        rw [hp, hp'] at hm
        simp only [Except.map] at hm
        exact ih st1 st1' (by injection hm)
      | error e =>
        rw [hp, hp'] at hm
        simp [Except.map] at hm
    | error e =>
      cases hp' : processSubs ⟨cfg', io⟩ now uid uemail en dd
          (st.db.subscriptions.filter
            (subQueryMatch uid (startOfDay (now + dd * secondsPerDay)))) st' with
      | ok st1' =>
        rw [hp, hp'] at hm
        simp [Except.map] at hm
      | error e' =>
        rw [hp, hp'] at hm
        simp only [Except.map, Except.error.injEq] at hm
        simp [hm]

/-- The store evolution of the user loop is SMTP-configuration
independent. -/
lemma scanUsers_cfg_indep (cfg cfg' : SMTPConfig) (io : Nat → Bool)
    (now : Nat) (us : List UserR) :
    ∀ st st' : ScanState, st.db = st'.db →
      (scanUsers ⟨cfg, io⟩ now us st).map ScanState.db =
      (scanUsers ⟨cfg', io⟩ now us st').map ScanState.db := by
  induction us with
  | nil => intro st st' h; simp [scanUsers, Except.map, h]
  | cons v rest ih =>
    intro st st' h
    simp only [scanUsers]
    have hm := scanDays_cfg_indep cfg cfg' io now v.id v.email
      (emailEnabledOf v) (reminderDaysOf v) st st' h
    cases hp : scanDays ⟨cfg, io⟩ now v.id v.email (emailEnabledOf v)
        (reminderDaysOf v) st with
    | ok st1 =>
      cases hp' : scanDays ⟨cfg', io⟩ now v.id v.email (emailEnabledOf v)
          (reminderDaysOf v) st' with
      | ok st1' =>
        rw [hp, hp'] at hm
        simp only [Except.map] at hm
        exact ih st1 st1' (by injection hm)
      | error e =>
        rw [hp, hp'] at hm
        simp [Except.map] at hm
    | error e =>
      cases hp' : scanDays ⟨cfg', io⟩ now v.id v.email (emailEnabledOf v)
          (reminderDaysOf v) st' with
      | ok st1' =>
        rw [hp, hp'] at hm
        simp [Except.map] at hm
      | error e' =>
        rw [hp, hp'] at hm
        simp only [Except.map, Except.error.injEq] at hm
        simp [hm]

/-- C6: the dispatcher returns `true` exactly when the channel is fully
configured and every channel step succeeds — `false` (rather than an
exception, which the Python code catches) on missing configuration,
connection failure, authentication failure, or send failure — and the
store produced by a scan (notification records and `last_notified`
updates) does not depend on the SMTP configuration at all, so a failed
dispatch never suppresses them. -/
theorem C6_dispatch_false_never_blocks (cfg cfg' : SMTPConfig)
    (io : Nat → Bool) (now : Nat) (db : ScanDB) (a b c : String) :
    (send_email_notification cfg a b c = true ↔
      (cfg.smtpUsername ≠ "" ∧ cfg.smtpPassword ≠ "" ∧ cfg.fromEmail ≠ "" ∧
       cfg.connectOk = true ∧ cfg.loginOk = true ∧ cfg.sendOk = true)) ∧
    (check_renewal_notifications ⟨cfg, io⟩ now db).map ScanState.db =
      (check_renewal_notifications ⟨cfg', io⟩ now db).map ScanState.db := by
  constructor
  · obtain ⟨u0, p0, f0, c0, l0, s0⟩ := cfg
    cases c0 <;> cases l0 <;> cases s0 <;>
      cases hu : u0 == "" <;> cases hp : p0 == "" <;> cases hf : f0 == "" <;>
      simp_all [send_email_notification, beq_iff_eq]
  · exact scanUsers_cfg_indep cfg cfg' io now db.users
      { db := db, emails := [] } { db := db, emails := [] } rfl

/-- C8 counterexample: a per-subscription store failure (the
notification insert for subscription 10 raising) aborts the whole run —
the claim that such an error does not prevent processing of the
remaining subscriptions is false.  With the insert succeeding, the very
same run completes and notifies both subscriptions. -/
theorem C8_insert_failure_aborts_run :
    check_renewal_notifications
        ⟨⟨"u", "p", "f@x.com", true, true, true⟩, fun i => i != 10⟩ 115200
        ⟨[⟨1, "alice@x.com", none⟩],
         [⟨10, "Netflix", 15, "monthly", 349200, none, 1, none⟩,
          ⟨11, "Spotify", 9, "monthly", 352800, none, 1, none⟩], []⟩ =
      .error "insert_one failed" ∧
    (check_renewal_notifications
        ⟨⟨"u", "p", "f@x.com", true, true, true⟩, fun _ => true⟩ 115200
        ⟨[⟨1, "alice@x.com", none⟩],
         [⟨10, "Netflix", 15, "monthly", 349200, none, 1, none⟩,
          ⟨11, "Spotify", 9, "monthly", 352800, none, 1, none⟩], []⟩).map
      (fun st => st.db.notifications.length) = .ok 2 := by
  exact ⟨rfl, rfl⟩

/-- C8 amended: only dispatch failures are isolated.  When every
notification insert succeeds, the scan runs to completion for every SMTP
configuration — including ones on which every dispatch call fails — so a
failed dispatch never aborts the remainder of the run. -/
theorem C8_dispatch_failure_never_aborts (cfg : SMTPConfig) (now : Nat)
    (db : ScanDB) :
    ∃ st, check_renewal_notifications ⟨cfg, fun _ => true⟩ now db = .ok st :=
  scanUsers_total ⟨cfg, fun _ => true⟩ now db.users (fun _ => rfl)
    { db := db, emails := [] }

/-- A member of a list of users with pairwise-distinct ids splits the
list into a prefix and suffix that avoid its id. -/
lemma users_decomp (us : List UserR) (u : UserR) (hu : u ∈ us)
    (hids : (us.map UserR.id).Nodup) :
    ∃ upre upost, us = upre ++ u :: upost ∧
      (∀ v ∈ upre, v.id ≠ u.id) ∧ (∀ v ∈ upost, v.id ≠ u.id) := by
  obtain ⟨upre, upost, heq⟩ := List.mem_iff_append.mp hu
  refine ⟨upre, upost, heq, ?_, ?_⟩
  · rw [heq, List.map_append, List.map_cons] at hids
    have hdisj := List.disjoint_of_nodup_append hids
    intro v hv h
    exact hdisj (h ▸ List.mem_map_of_mem UserR.id hv)
      (List.mem_cons_self _ _)
  · rw [heq, List.map_append, List.map_cons] at hids
    have hr := (hids.of_append_right).not_mem
    intro v hv h
    exact hr (h ▸ List.mem_map_of_mem UserR.id hv)

/-- A member of a duplicate-free offset list splits it into a prefix and
suffix not containing it. -/
lemma days_decomp (ds : List Nat) (d : Nat) (hd : d ∈ ds)
    (hnodup : ds.Nodup) :
    ∃ dpre dpost, ds = dpre ++ d :: dpost ∧ d ∉ dpre ∧ d ∉ dpost := by
  obtain ⟨dpre, dpost, heq⟩ := List.mem_iff_append.mp hd
  rw [heq] at hnodup
  refine ⟨dpre, dpost, heq, ?_, (hnodup.of_append_right).not_mem⟩
  intro h
  exact List.disjoint_of_nodup_append hnodup h (List.mem_cons_self d dpost)

/-- C1: for every user — with effective offsets `reminder_days` or the
`[1, 3, 7]` default — and every subscription of that user (unique per
id, as is the user) whose `renewal_date` lies in the target-day window
of some offset `d` and whose `last_notified` is unset, one run of
`check_renewal_notifications` creates exactly one new `renewal_reminder`
Notification for it and sets its `last_notified` to the run's `now`. -/
theorem C1_scan_notifies_each_due_subscription (eff : ScanEff) (now : Nat)
    (db : ScanDB) (u : UserR) (s : Sub) (d : Nat)
    (heff : ∀ i, eff.insertOk i = true)
    (hu : u ∈ db.users)
    (hids : (db.users.map UserR.id).Nodup)
    (hs : db.subscriptions.filter (fun t => t.id == s.id) = [s])
    (howner : s.owner_id = u.id)
    (hln : s.last_notified = none)
    (hdays : d ∈ reminderDaysOf u)
    (hnodup : (reminderDaysOf u).Nodup)
    (hwin1 : startOfDay (now + d * secondsPerDay) ≤ s.renewal_date)
    (hwin2 : s.renewal_date < startOfDay (now + d * secondsPerDay)
      + secondsPerDay) :
    ∃ st, check_renewal_notifications eff now db = .ok st ∧
      renewalNotifCount s.id st.db = renewalNotifCount s.id db + 1 ∧
      st.db.subscriptions.filter (fun t => t.id == s.id) =
        [{ s with last_notified := some now }] := by
  obtain ⟨upre, upost, huEq, hpre, hpost⟩ := users_decomp db.users u hu hids
  obtain ⟨dpre, dpost, hdEq, hd1, hd2⟩ :=
    days_decomp (reminderDaysOf u) d hdays hnodup
  obtain ⟨st, h1, _, h3, h4, _⟩ :=
    scan_notifies_once eff now db upre upost u s dpre dpost d heff huEq hpre
      hpost hs howner hdEq hd1 hd2 hwin1 hwin2 (by rw [hln]; rfl)
  exact ⟨st, h1, h4, h3⟩

/-- Fully evaluated instance of
`C1_scan_notifies_each_due_subscription`: one user with default
offsets, one subscription renewing in the 3-day window, `last_notified`
unset. -/
theorem C1_scan_notifies_each_due_subscription_witness :
    ∃ st, check_renewal_notifications
        ⟨⟨"u", "p", "f@x.com", true, true, true⟩, fun _ => true⟩ 115200
        ⟨[⟨1, "alice@x.com", none⟩],
         [⟨10, "Netflix", 15, "monthly", 349200, none, 1, none⟩], []⟩ =
      .ok st ∧
      renewalNotifCount 10 st.db =
        renewalNotifCount 10
          ⟨[⟨1, "alice@x.com", none⟩],
           [⟨10, "Netflix", 15, "monthly", 349200, none, 1, none⟩], []⟩ + 1 ∧
      st.db.subscriptions.filter (fun t => t.id == 10) =
        [⟨10, "Netflix", 15, "monthly", 349200, none, 1, some 115200⟩] :=
  C1_scan_notifies_each_due_subscription
    ⟨⟨"u", "p", "f@x.com", true, true, true⟩, fun _ => true⟩ 115200
    ⟨[⟨1, "alice@x.com", none⟩],
     [⟨10, "Netflix", 15, "monthly", 349200, none, 1, none⟩], []⟩
    ⟨1, "alice@x.com", none⟩ ⟨10, "Netflix", 15, "monthly", 349200, none, 1, none⟩
    3 (fun _ => rfl) (by decide) (by decide) (by decide) rfl rfl (by decide)
    (by decide) (by decide) (by decide)

/-- C2 counterexample: the `last_notified` marker does not deduplicate
same-`now` runs.  A first run over one due subscription creates one
Notification; an immediate second run with the same `now` creates a
second one (not zero), because `last_notified = now` is still strictly
before the target window's future day-start.  Likewise a single scan
does not skip a subscription whose `last_notified` sits two hours before
the scan's day-start — it creates a Notification for it. -/
theorem C2_same_now_rerun_duplicates :
    (check_renewal_notifications
        ⟨⟨"u", "p", "f@x.com", true, true, true⟩, fun _ => true⟩ 115200
        ⟨[⟨1, "alice@x.com", none⟩],
         [⟨10, "Netflix", 15, "monthly", 349200, none, 1, none⟩], []⟩).map
      (fun st => st.db.notifications.length) = .ok 1 ∧
    ((check_renewal_notifications
        ⟨⟨"u", "p", "f@x.com", true, true, true⟩, fun _ => true⟩ 115200
        ⟨[⟨1, "alice@x.com", none⟩],
         [⟨10, "Netflix", 15, "monthly", 349200, none, 1, none⟩], []⟩).bind
      (fun st => check_renewal_notifications
        ⟨⟨"u", "p", "f@x.com", true, true, true⟩, fun _ => true⟩ 115200
        st.db)).map (fun st => st.db.notifications.length) = .ok 2 ∧
    (check_renewal_notifications
        ⟨⟨"u", "p", "f@x.com", true, true, true⟩, fun _ => true⟩ 115200
        ⟨[⟨1, "alice@x.com", none⟩],
         [⟨10, "Netflix", 15, "monthly", 349200, none, 1, some 79200⟩], []⟩).map
      (fun st => st.db.notifications.length) = .ok 1 :=
  ⟨rfl, rfl, rfl⟩

/-- C2 amended: for positive offsets the dedup clause compares
`last_notified` with the start of the *target* day, which lies in the
future, so any subscription whose `last_notified` is unset or anywhere
before that window start — `now` itself, or two hours before the scan's
day-start — is (re-)notified.  Two runs with the same `now` therefore
create one Notification each: one after the first run, two after the
second. -/
theorem C2_amended_same_now_rerun_notifies_again (eff : ScanEff) (now : Nat)
    (db : ScanDB) (u : UserR) (s : Sub) (d : Nat)
    (heff : ∀ i, eff.insertOk i = true)
    (hu : u ∈ db.users)
    (hids : (db.users.map UserR.id).Nodup)
    (hs : db.subscriptions.filter (fun t => t.id == s.id) = [s])
    (howner : s.owner_id = u.id)
    (hln : dedupOk (startOfDay (now + d * secondsPerDay)) s.last_notified
      = true)
    (hdays : d ∈ reminderDaysOf u)
    (hnodup : (reminderDaysOf u).Nodup)
    (hwin1 : startOfDay (now + d * secondsPerDay) ≤ s.renewal_date)
    (hwin2 : s.renewal_date < startOfDay (now + d * secondsPerDay)
      + secondsPerDay)
    (hdpos : 1 ≤ d) :
    ∃ st1 st2, check_renewal_notifications eff now db = .ok st1 ∧
      renewalNotifCount s.id st1.db = renewalNotifCount s.id db + 1 ∧
      check_renewal_notifications eff now st1.db = .ok st2 ∧
      renewalNotifCount s.id st2.db = renewalNotifCount s.id db + 2 := by
  obtain ⟨upre, upost, huEq, hpre, hpost⟩ := users_decomp db.users u hu hids
  obtain ⟨dpre, dpost, hdEq, hd1, hd2⟩ :=
    days_decomp (reminderDaysOf u) d hdays hnodup
  obtain ⟨st1, h1, h2, h3, h4, _⟩ :=
    scan_notifies_once eff now db upre upost u s dpre dpost d heff huEq hpre
      hpost hs howner hdEq hd1 hd2 hwin1 hwin2 hln
  have hlt : now < startOfDay (now + d * secondsPerDay) := by
    rw [startOfDay_add_days]
    unfold secondsPerDay
    omega
  obtain ⟨st2, g1, _, _, g4, _⟩ :=
    scan_notifies_once eff now st1.db upre upost u
      { s with last_notified := some now } dpre dpost d heff
      (h2.trans huEq) hpre hpost h3 howner hdEq hd1 hd2 hwin1 hwin2
      (by simp [dedupOk, hlt])
  refine ⟨st1, st2, h1, h4, g1, ?_⟩
  rw [g4, h4]

/-- Fully evaluated instance of
`C2_amended_same_now_rerun_notifies_again`, on the scenario subscription
whose `last_notified` is two hours before the scan's day-start: the
first run notifies it again, the second run a third time. -/
theorem C2_amended_same_now_rerun_notifies_again_witness :
    ∃ st1 st2, check_renewal_notifications
        ⟨⟨"u", "p", "f@x.com", true, true, true⟩, fun _ => true⟩ 115200
        ⟨[⟨1, "alice@x.com", none⟩],
         [⟨10, "Netflix", 15, "monthly", 349200, none, 1, some 79200⟩], []⟩ =
      .ok st1 ∧
      renewalNotifCount 10 st1.db =
        renewalNotifCount 10
          ⟨[⟨1, "alice@x.com", none⟩],
           [⟨10, "Netflix", 15, "monthly", 349200, none, 1, some 79200⟩], []⟩
          + 1 ∧
      check_renewal_notifications
        ⟨⟨"u", "p", "f@x.com", true, true, true⟩, fun _ => true⟩ 115200
        st1.db = .ok st2 ∧
      renewalNotifCount 10 st2.db =
        renewalNotifCount 10
          ⟨[⟨1, "alice@x.com", none⟩],
           [⟨10, "Netflix", 15, "monthly", 349200, none, 1, some 79200⟩], []⟩
          + 2 :=
  C2_amended_same_now_rerun_notifies_again
    ⟨⟨"u", "p", "f@x.com", true, true, true⟩, fun _ => true⟩ 115200
    ⟨[⟨1, "alice@x.com", none⟩],
     [⟨10, "Netflix", 15, "monthly", 349200, none, 1, some 79200⟩], []⟩
    ⟨1, "alice@x.com", none⟩
    ⟨10, "Netflix", 15, "monthly", 349200, none, 1, some 79200⟩ 3
    (fun _ => rfl) (by decide) (by decide) (by decide) rfl (by decide)
    (by decide) (by decide) (by decide) (by decide) (by decide)

/-- C10: missing or empty notification preferences — and preferences
without the `email_notifications` key — default to email enabled: the
scan records exactly one dispatch attempt for a due subscription unless
the owner's preference is explicitly `false`, in which case it records
none. -/
theorem C10_email_enabled_by_default (eff : ScanEff) (now : Nat)
    (db : ScanDB) (u : UserR) (s : Sub) (d : Nat)
    (heff : ∀ i, eff.insertOk i = true)
    (hu : u ∈ db.users)
    (hids : (db.users.map UserR.id).Nodup)
    (hs : db.subscriptions.filter (fun t => t.id == s.id) = [s])
    (howner : s.owner_id = u.id)
    (hln : s.last_notified = none)
    (hdays : d ∈ reminderDaysOf u)
    (hnodup : (reminderDaysOf u).Nodup)
    (hwin1 : startOfDay (now + d * secondsPerDay) ≤ s.renewal_date)
    (hwin2 : s.renewal_date < startOfDay (now + d * secondsPerDay)
      + secondsPerDay) :
    ∃ st, check_renewal_notifications eff now db = .ok st ∧
      emailAttemptsFor s.id st =
        (if (prefDictOf u).email_notifications = some false then 0 else 1) := by
  obtain ⟨upre, upost, huEq, hpre, hpost⟩ := users_decomp db.users u hu hids
  obtain ⟨dpre, dpost, hdEq, hd1, hd2⟩ :=
    days_decomp (reminderDaysOf u) d hdays hnodup
  obtain ⟨st, h1, _, _, _, h5⟩ :=
    scan_notifies_once eff now db upre upost u s dpre dpost d heff huEq hpre
      hpost hs howner hdEq hd1 hd2 hwin1 hwin2 (by rw [hln]; rfl)
  refine ⟨st, h1, ?_⟩
  rw [h5]
  cases hp : (prefDictOf u).email_notifications with
  | none => simp [emailEnabledOf, hp]
  | some b => cases b <;> simp [emailEnabledOf, hp]

/-- Fully evaluated instance of `C10_email_enabled_by_default`: the
user's preferences exist but hold no email key, so the scan records one
dispatch attempt. -/
theorem C10_email_enabled_by_default_witness :
    ∃ st, check_renewal_notifications
        ⟨⟨"u", "p", "f@x.com", true, true, true⟩, fun _ => true⟩ 115200
        ⟨[⟨1, "alice@x.com", some ⟨some [1, 3, 7], none⟩⟩],
         [⟨10, "Netflix", 15, "monthly", 349200, none, 1, none⟩], []⟩ =
      .ok st ∧ emailAttemptsFor 10 st = 1 := by
  have h := C10_email_enabled_by_default
    ⟨⟨"u", "p", "f@x.com", true, true, true⟩, fun _ => true⟩ 115200
    ⟨[⟨1, "alice@x.com", some ⟨some [1, 3, 7], none⟩⟩],
     [⟨10, "Netflix", 15, "monthly", 349200, none, 1, none⟩], []⟩
    ⟨1, "alice@x.com", some ⟨some [1, 3, 7], none⟩⟩
    ⟨10, "Netflix", 15, "monthly", 349200, none, 1, none⟩ 3
    (fun _ => rfl) (by decide) (by decide) (by decide) rfl rfl (by decide)
    (by decide) (by decide) (by decide)
  simpa using h

end Servsys
